import Mathlib

/-!
Verification of the rs-port-forward relay core: a shallow embedding of the
connection relay (src/main.rs, handle_connection), the lifecycle event model
(src/events.rs), the batched persistence writer (src/main.rs, the SQLite
subscriber task), the row store and aggregation query (src/db.rs) and the
HTTP statistics handler (src/web.rs), together with theorems settling the
stated properties of each component.

Machine integers are modelled as Nat (u64/u16/usize) and Int (i64); the
u64-to-i64 reinterpreting cast performed when rows are stored is modelled
explicitly.  Timestamps (chrono DateTime values, of which only the epoch
second accessor is ever used) are modelled as Int epoch seconds and are
threaded as explicit clock-reading parameters, since they are environment
inputs.  Socket reads, writes, dial outcomes and the select interleaving are
environment inputs as well and are passed as explicit schedules.
-/

namespace RsPortForward

/-- String constant: the log_name stored for a ConnectionStarted event. -/
def logNameStarted : String := "connection_started"

/-- String constant: the log_name stored for a ConnectionClosed event. -/
def logNameClosed : String := "connection_closed"

/-- String constant: the log_name stored for a ConnectionError event. -/
def logNameError : String := "connection_error"

/-- String constant: the log_name stored for a ConnectionTimeout event. -/
def logNameTimeout : String := "connection_timeout"

/-- String constant: timeout error text for the client-to-remote direction
(src/main.rs line 165). -/
def timeoutTextAB : String := "Connection timeout (client->remote)"

/-- String constant: timeout error text for the remote-to-client direction
(src/main.rs line 196). -/
def timeoutTextBA : String := "Connection timeout (remote->client)"

/-- Shared envelope of every LogEvent variant (src/events.rs): timestamp,
rule name, local port, remote address, remote port and the optional client
address. -/
structure EventMeta where
  ts : Int
  name : String
  local_port : Nat
  remote_address : String
  remote_port : Nat
  client_addr : Option String
deriving DecidableEq, Repr

/-- The lifecycle event enum LogEvent of src/events.rs.  Each variant
carries the shared envelope; Closed adds the two byte counters, Error and
Timeout add an error message. -/
inductive LogEvent where
  | connectionStarted (m : EventMeta)
  | connectionClosed (m : EventMeta) (bytes_from_to bytes_to_from : Nat)
  | connectionError (m : EventMeta) (error : String)
  | connectionTimeout (m : EventMeta) (error : String)
deriving DecidableEq, Repr

/-- Recognises the ConnectionStarted variant. -/
def LogEvent.isStarted : LogEvent → Bool
  | .connectionStarted _ => true
  | _ => false

/-- Recognises the ConnectionClosed variant. -/
def LogEvent.isClosed : LogEvent → Bool
  | .connectionClosed _ _ _ => true
  | _ => false

/-- Recognises the ConnectionError variant. -/
def LogEvent.isError : LogEvent → Bool
  | .connectionError _ _ => true
  | _ => false

/-- Recognises the ConnectionTimeout variant. -/
def LogEvent.isTimeout : LogEvent → Bool
  | .connectionTimeout _ _ => true
  | _ => false

/-- The two copy directions of handle_connection: a_to_b is client-to-remote,
b_to_a is remote-to-client. -/
inductive Dir where
  | aToB
  | bToA
deriving DecidableEq, Repr

/-- Direction-specific timeout error text, as published by the two copy
loops in handle_connection. -/
def timeoutText : Dir → String
  | .aToB => timeoutTextAB
  | .bToA => timeoutTextBA

/-- One observed outcome of a single iteration of a copy loop in
handle_connection: the timeout-wrapped read either returns n bytes
(n = 0 is EOF; for n > 0 the subsequent write_all succeeds iff writeOk),
returns a read error, or the idle timeout elapses. -/
inductive CopyStep where
  | recv (n : Nat) (writeOk : Bool)
  | readErr
  | readTimeout
deriving DecidableEq, Repr

/-- A step terminates its copy loop: EOF (n = 0), a failed write after a
non-empty read, a read error, or an elapsed idle timeout. -/
def CopyStep.isTerminator : CopyStep → Bool
  | .recv n writeOk => n == 0 || !writeOk
  | .readErr => true
  | .readTimeout => true

/-- Why the direction race of handle_connection settled. -/
inductive ExitReason where
  | eof
  | readError
  | writeError
  | timedOut
deriving DecidableEq, Repr

/-- The per-connection parameters of handle_connection that appear in every
event it publishes: rule name, local port, remote target and the optional
peer address captured from the accepted socket. -/
structure ConnInfo where
  name : String
  local_port : Nat
  remote_address : String
  remote_port : Nat
  client_addr : Option String
deriving DecidableEq, Repr

/-- Builds the event envelope handle_connection attaches to an event
published at clock reading ts. -/
def ConnInfo.meta (c : ConnInfo) (ts : Int) : EventMeta :=
  ⟨ts, c.name, c.local_port, c.remote_address, c.remote_port, c.client_addr⟩

/-- The relaying phase of handle_connection after a successful dial: the two
copy loops race under tokio select.  The schedule linearises the loop
iterations actually executed, each tagged with its direction; the first
terminating step settles the race, after which the loser is abandoned by
socket closure and the unconditional ConnectionClosed event is published
with the byte counters accumulated so far.  A schedule with no terminating
step corresponds to a connection still relaying: no Closed event yet and no
exit reason.  On a successful read of n > 0 bytes the counter of that
direction is incremented before the write is attempted, exactly as in the
source.  tsTimeout and tsClosed are the clock readings used for the at most
one ConnectionTimeout event and for the ConnectionClosed event. -/
def relayLoop (c : ConnInfo) (tsTimeout tsClosed : Int) :
    List (Dir × CopyStep) → Nat → Nat → List LogEvent × Option (Dir × ExitReason)
  | [], _, _ => ([], none)
  | (d, s) :: rest, a, b =>
    match s with
    | .recv n writeOk =>
      if n = 0 then
        ([.connectionClosed (c.meta tsClosed) a b], some (d, .eof))
      else
        match d with
        | .aToB =>
          if writeOk then
            relayLoop c tsTimeout tsClosed rest (a + n) b
          else
            ([.connectionClosed (c.meta tsClosed) (a + n) b], some (d, .writeError))
        | .bToA =>
          if writeOk then
            relayLoop c tsTimeout tsClosed rest a (b + n)
          else
            ([.connectionClosed (c.meta tsClosed) a (b + n)], some (d, .writeError))
    | .readErr =>
      ([.connectionClosed (c.meta tsClosed) a b], some (d, .readError))
    | .readTimeout =>
      ([.connectionTimeout (c.meta tsTimeout) (timeoutText d),
        .connectionClosed (c.meta tsClosed) a b], some (d, .timedOut))

/-- The body of handle_connection (src/main.rs lines 114 to 255).  The
dialer gives the outcome of the k-th dial attempt the environment would
return; the source performs exactly one attempt, consulting only attempt 0.
On dial success a ConnectionStarted event is published (clock reading
tsStart) and the two copy loops run on the schedule; on dial failure a
single ConnectionError event carrying the captured client address and the
dial error text is published (clock reading tsErr) and nothing else
happens. -/
def handle_connection (c : ConnInfo) (dialer : Nat → Except String Unit)
    (tsStart tsTimeout tsClosed tsErr : Int) (sched : List (Dir × CopyStep)) :
    List LogEvent × Option (Dir × ExitReason) :=
  match dialer 0 with
  | .ok _ =>
    let r := relayLoop c tsTimeout tsClosed sched 0 0
    (.connectionStarted (c.meta tsStart) :: r.1, r.2)
  | .error e =>
    ([.connectionError (c.meta tsErr) e], none)

/-- Bytes a schedule step contributes to the counter of direction d: the n
of a successful read tagged d, and zero otherwise. -/
def stepBytes (d : Dir) : Dir × CopyStep → Nat
  | (d', .recv n _) => if d' = d then n else 0
  | _ => 0

/-- Total bytes a schedule contributes to the counter of direction d. -/
def schedBytes (d : Dir) (sched : List (Dir × CopyStep)) : Nat :=
  (sched.map (stepBytes d)).sum

/-- The ConnectionRow struct of src/db.rs: the in-memory form of one row of
the connections table, as built by the persistence writer.  The u64 byte
counters are Nat here; the u64-to-i64 cast happens at insertion. -/
structure ConnectionRow where
  ts : Int
  name : String
  log_name : String
  local_port : Nat
  remote_address : String
  remote_port : Nat
  client_addr : Option String
  bytes_from_to : Nat
  bytes_to_from : Nat
deriving DecidableEq, Repr

/-- The event-to-row translation performed by the persistence writer task of
main.rs (lines 369 to 420): the envelope is copied, log_name identifies the
variant, only ConnectionClosed carries byte counters, all other variants
store zero for both. -/
def rowOfEvent : LogEvent → ConnectionRow
  | .connectionClosed m bft btf =>
    ⟨m.ts, m.name, logNameClosed, m.local_port, m.remote_address, m.remote_port,
      m.client_addr, bft, btf⟩
  | .connectionError m _ =>
    ⟨m.ts, m.name, logNameError, m.local_port, m.remote_address, m.remote_port,
      m.client_addr, 0, 0⟩
  | .connectionTimeout m _ =>
    ⟨m.ts, m.name, logNameTimeout, m.local_port, m.remote_address, m.remote_port,
      m.client_addr, 0, 0⟩
  | .connectionStarted m =>
    ⟨m.ts, m.name, logNameStarted, m.local_port, m.remote_address, m.remote_port,
      m.client_addr, 0, 0⟩

/-- The reinterpreting u64-to-i64 cast written as `as i64` in db.rs when a
byte counter is bound into the INSERT statement: values below 2 to the 63
map to themselves, larger ones wrap to negative. -/
def toI64 (n : Nat) : Int :=
  let m : Nat := n % 2 ^ 64
  if m < 2 ^ 63 then (m : Int) else (m : Int) - 2 ^ 64

/-- One persisted row of the connections table, with byte counters holding
the i64 values actually stored. -/
structure StoredRow where
  ts : Int
  name : String
  log_name : String
  local_port : Nat
  remote_address : String
  remote_port : Nat
  client_addr : Option String
  bytes_from_to : Int
  bytes_to_from : Int
deriving DecidableEq, Repr

/-- The conversion applied by the INSERT of insert_connection_rows: the byte
counters go through the u64-to-i64 cast, every other column is stored as
given. -/
def toStored (r : ConnectionRow) : StoredRow :=
  ⟨r.ts, r.name, r.log_name, r.local_port, r.remote_address, r.remote_port,
    r.client_addr, toI64 r.bytes_from_to, toI64 r.bytes_to_from⟩

/-- The batched insert insert_connection_rows of db.rs (lines 115 to 152) on
the successful path, over a table modelled as the list of its rows in
insertion order.  The result pairs the table afterwards with the number of
transactions opened: an empty row slice returns before touching the store,
opening no transaction; otherwise one transaction inserts every row in
order and commits. -/
def insert_connection_rows (store : List StoredRow) (rows : List ConnectionRow) :
    List StoredRow × Nat :=
  match rows with
  | [] => (store, 0)
  | _ => (store ++ rows.map toStored, 1)

/-- The ClientTraffic struct of db.rs: one aggregation group, with the u64
byte sums produced by the max-with-zero clamp and u64 cast of the query. -/
structure ClientTraffic where
  client_addr : Option String
  bytes_from_to : Nat
  bytes_to_from : Nat
deriving DecidableEq, Repr

/-- Combined total bytes of a group, the ORDER BY key of the query. -/
def ClientTraffic.total (g : ClientTraffic) : Nat :=
  g.bytes_from_to + g.bytes_to_from

/-- The half-open window condition of the WHERE clause of
query_traffic_by_client: start is inclusive, end exclusive. -/
def rowInWindow (s e : Int) (r : StoredRow) : Bool :=
  decide (s ≤ r.ts) && decide (r.ts < e)

/-- Builds the aggregation group of one client address key: SUM of each byte
column over the window rows carrying that key, then the max-with-zero clamp
and cast to u64 performed when the row is read back in db.rs. -/
def clientGroup (m : List StoredRow) (k : Option String) : ClientTraffic :=
  let sub := m.filter (fun r => decide (r.client_addr = k))
  ⟨k, (max (sub.map (fun r : StoredRow => r.bytes_from_to)).sum 0).toNat,
    (max (sub.map (fun r : StoredRow => r.bytes_to_from)).sum 0).toNat⟩

/-- The aggregation query query_traffic_by_client of db.rs (lines 154 to
192) under SQL semantics over the row-list table model: restrict to rows
with start_time <= ts < end_time, group by client address (rows with a null
address forming one group), sum each byte column per group, and order the
groups by combined total descending.  SQL leaves the order of tied groups
unspecified; the model fixes it with a stable insertion sort, and the
theorems only use sortedness.  SUM is modelled over unbounded integers: the
model does not reproduce the SQLite integer-overflow abort, which would
surface as a query failure, a path handled separately by the HTTP layer. -/
def query_traffic_by_client (store : List StoredRow) (s e : Int) :
    List ClientTraffic :=
  let m := store.filter (rowInWindow s e)
  let ks := (m.map (fun r => r.client_addr)).dedup
  List.insertionSort (fun g1 g2 => g2.total ≤ g1.total) (ks.map (clientGroup m))

/-- One receive outcome of the broadcast subscription rx of the persistence
writer: a delivered event, the Lagged loss signal of tokio broadcast (the
subscriber fell behind by more than the bus capacity and n events were
skipped), or Closed (every sender is gone). -/
inductive RecvOutcome where
  | ok (e : LogEvent)
  | lagged (n : Nat)
  | closed
deriving DecidableEq, Repr

/-- The mutable state of the persistence writer task: the batch buffer, the
rolling flush deadline (an instant, modelled as Nat), and whether the loop
has exited. -/
structure WriterState where
  buf : List ConnectionRow
  deadline : Nat
  stopped : Bool
deriving DecidableEq, Repr

/-- Which branch of the select of the writer loop fires in one iteration:
the subscription receive completes, or sleep_until of the deadline
completes. -/
inductive WriterBranch where
  | recv (r : RecvOutcome)
  | tick
deriving DecidableEq, Repr

/-- One iteration of the persistence writer loop of main.rs (lines 358 to
441), entered at clock reading now, returning the new state and the batches
passed to insert_connection_rows during the iteration, in order.  The loop
head first performs the flush check: if the buffer length has reached
max_count the buffer is flushed, cleared, and the deadline reset.  Then the
select branch fires: a delivered event is translated and appended; a
receive error (the catch-all arm of the source, covering both Closed and
Lagged) flushes a non-empty buffer and stops the loop; an elapsed deadline
flushes and clears a non-empty buffer and resets the deadline either way.
A flush failure only logs, so flushing is modelled as emitting the batch. -/
def writerIter (maxCount flushEvery now : Nat) (st : WriterState)
    (br : WriterBranch) : WriterState × List (List ConnectionRow) :=
  let headFlush : Bool := maxCount ≤ st.buf.length
  let st1 : WriterState :=
    if headFlush then ⟨[], now + flushEvery, st.stopped⟩ else st
  let f1 : List (List ConnectionRow) := if headFlush then [st.buf] else []
  match br with
  | .recv (.ok e) => ({ st1 with buf := st1.buf ++ [rowOfEvent e] }, f1)
  | .recv (.lagged _) =>
    if st1.buf.isEmpty then ({ st1 with stopped := true }, f1)
    else ({ st1 with stopped := true }, f1 ++ [st1.buf])
  | .recv .closed =>
    if st1.buf.isEmpty then ({ st1 with stopped := true }, f1)
    else ({ st1 with stopped := true }, f1 ++ [st1.buf])
  | .tick =>
    if st1.buf.isEmpty then ({ st1 with deadline := now + flushEvery }, f1)
    else (⟨[], now + flushEvery, st1.stopped⟩, f1 ++ [st1.buf])

/-- The initial writer state: empty buffer, deadline one flush interval
after startup, loop running. -/
def writerInit (flushEvery now0 : Nat) : WriterState :=
  ⟨[], now0 + flushEvery, false⟩

/-- Runs the writer over a script of timed select outcomes, collecting every
batch flushed.  Once the loop has stopped, remaining script entries are
ignored: the task has exited. -/
def writerRun (maxCount flushEvery : Nat) :
    WriterState → List (Nat × WriterBranch) → WriterState × List (List ConnectionRow)
  | st, [] => (st, [])
  | st, (now, br) :: rest =>
    if st.stopped then (st, [])
    else
      let r := writerIter maxCount flushEvery now st br
      let rest' := writerRun maxCount flushEvery r.1 rest
      (rest'.1, r.2 ++ rest'.2)

/-- The states at which the writer loop head, and with it the flush check,
is entered while running a script: the state before each processed
iteration and the state a further iteration would observe. -/
def writerStates (maxCount flushEvery : Nat) :
    WriterState → List (Nat × WriterBranch) → List WriterState
  | st, [] => [st]
  | st, (now, br) :: rest =>
    if st.stopped then [st]
    else st :: writerStates maxCount flushEvery (writerIter maxCount flushEvery now st br).1 rest

/-- String constant: the error text of parse_time for an integer outside
the representable timestamp range (src/web.rs line 25). -/
def errUnixTs : String := "invalid unix timestamp"

/-- String constant: the error text of parse_time for a string that is
neither an integer nor RFC3339 (src/web.rs line 28). -/
def errTimeFormat : String := "invalid time format, use RFC3339 or unix seconds"

/-- String constant: the 503 body of stats_clients_handler when no store is
configured (src/web.rs line 46). -/
def errNoDb : String := "database is not configured"

/-- Value of a non-empty all-digit character list, none otherwise: the digit
part of the grammar accepted by the Rust i64 FromStr implementation. -/
def digitsVal : List Char → Option Nat
  | [] => none
  | cs =>
    if cs.all (fun ch => ch.isDigit) then
      some (cs.foldl (fun a ch => a * 10 + (ch.toNat - 48)) 0)
    else none

/-- The Rust str parse to i64 used by parse_time: an optional single sign
followed by at least one ASCII digit, with the value required to fit a
signed 64-bit integer; anything else, overflow included, fails. -/
def parseI64 (s : String) : Option Int :=
  match s.data with
  | [] => none
  | c :: rest =>
    let signed : Bool × List Char :=
      if c = '-' then (true, rest)
      else if c = '+' then (false, rest)
      else (false, s.data)
    match digitsVal signed.2 with
    | none => none
    | some m =>
      if signed.1 then
        if m ≤ 2 ^ 63 then some (-(m : Int)) else none
      else
        if m ≤ 2 ^ 63 - 1 then some (m : Int) else none

/-- The parse_time helper of web.rs (lines 20 to 29): a string that parses
as i64 is taken as unix epoch seconds and validated against the range the
chrono timestamp constructor accepts, never reaching the RFC3339 branch;
only a string that fails integer parsing is handed to the RFC3339 parser.
The chrono range check and the chrono RFC3339 parser are external library
behaviour and are passed in as parameters inRange and rfc; a DateTime is
represented by its epoch seconds, the only accessor the repository uses. -/
def parse_time (inRange : Int → Bool) (rfc : String → Option Int) (s : String) :
    Except String Int :=
  match parseI64 s with
  | some secs => if inRange secs then .ok secs else .error errUnixTs
  | none =>
    match rfc s with
    | some t => .ok t
    | none => .error errTimeFormat

/-- The outcome of the stats handler: a JSON array of groups, or an error
status with its message body. -/
inductive HttpResult where
  | ok (rows : List ClientTraffic)
  | err (status : Nat) (msg : String)
deriving DecidableEq, Repr

/-- HTTP status of a handler outcome; a JSON body is a 200. -/
def statusOf : HttpResult → Nat
  | .ok _ => 200
  | .err code _ => code

/-- The stats_clients_handler of web.rs (lines 31 to 49): parse the start
then the end timestamp, answering 400 with the parse error text on the
first failure; with both parsed, answer 503 if no store handle is
configured; otherwise run the aggregation query, answering 500 with the
error text if it fails and the JSON rows if it succeeds.  The store handle
is modelled as the function the query call evaluates, its failure being
environment behaviour. -/
def stats_clients_handler (inRange : Int → Bool) (rfc : String → Option Int)
    (db : Option (Int → Int → Except String (List ClientTraffic)))
    (qstart qend : String) : HttpResult :=
  match parse_time inRange rfc qstart with
  | .error e => .err 400 e
  | .ok s =>
    match parse_time inRange rfc qend with
    | .error e => .err 400 e
    | .ok t =>
      match db with
      | some q =>
        match q s t with
        | .ok rows => .ok rows
        | .error e => .err 500 e
      | none => .err 503 errNoDb

/-- Sample rule name used by concrete evaluations. -/
def sName : String := "r1"

/-- Sample remote address used by concrete evaluations. -/
def sHost : String := "203.0.113.9"

/-- Sample client address used by concrete evaluations. -/
def sClient : String := "10.0.0.7"

/-- Sample dial error text used by concrete evaluations. -/
def sDialErr : String := "connection refused"

/-- Sample query error text used by concrete evaluations. -/
def sQErr : String := "sqlite busy"

/-- Sample connection parameters used by concrete evaluations. -/
def sConn : ConnInfo := ⟨sName, 9000, sHost, 9100, some sClient⟩

/-- Stepping the relay over a non-terminating schedule portion only
accumulates its read bytes onto the two counters. -/
theorem relayLoop_nonterm_append (c : ConnInfo) (tsT tsC : Int)
    (pre : List (Dir × CopyStep)) (hpre : ∀ p ∈ pre, p.2.isTerminator = false)
    (rest : List (Dir × CopyStep)) (a b : Nat) :
    relayLoop c tsT tsC (pre ++ rest) a b
      = relayLoop c tsT tsC rest (a + schedBytes .aToB pre) (b + schedBytes .bToA pre) := by
  induction pre generalizing a b with
  | nil => simp [schedBytes]
  | cons p pre ih =>
    obtain ⟨d, s⟩ := p
    have hs : s.isTerminator = false := hpre (d, s) (by simp)
    have hrest : ∀ q ∈ pre, q.2.isTerminator = false := fun q hq => hpre q (by simp [hq])
    cases s with
    | recv n writeOk =>
      simp only [CopyStep.isTerminator, Bool.or_eq_false_iff, beq_eq_false_iff_ne, ne_eq,
        Bool.not_eq_false] at hs
      obtain ⟨hn, hw⟩ := hs
      have hw' : writeOk = true := by simpa using hw
      cases d with
      | aToB =>
        simp [relayLoop, hn, hw', ih hrest, schedBytes, stepBytes, Nat.add_assoc]
      | bToA =>
        simp [relayLoop, hn, hw', ih hrest, schedBytes, stepBytes, Nat.add_assoc]
    | readErr => simp [CopyStep.isTerminator] at hs
    | readTimeout => simp [CopyStep.isTerminator] at hs

/-- C1: for every connection where the dial succeeds and the direction race
settles on a clean EOF (a read of 0 bytes) after a run of non-terminating
iterations, the relay publishes exactly one ConnectionStarted and exactly
one ConnectionClosed event, Started before Closed, and the Closed event
carries byte counters equal to the sum of the byte counts of all successful
non-zero reads performed on the client-to-remote and remote-to-client
directions respectively. -/
theorem relay_eof_events (c : ConnInfo) (dialer : Nat → Except String Unit)
    (hdial : dialer 0 = .ok ()) (tsStart tsT tsC tsE : Int)
    (pre rest : List (Dir × CopyStep)) (d : Dir) (w : Bool)
    (hpre : ∀ p ∈ pre, p.2.isTerminator = false) :
    handle_connection c dialer tsStart tsT tsC tsE (pre ++ (d, .recv 0 w) :: rest)
      = ([.connectionStarted (c.meta tsStart),
          .connectionClosed (c.meta tsC) (schedBytes .aToB pre) (schedBytes .bToA pre)],
         some (d, .eof))
    ∧ [LogEvent.connectionStarted (c.meta tsStart),
        LogEvent.connectionClosed (c.meta tsC) (schedBytes .aToB pre)
          (schedBytes .bToA pre)].countP LogEvent.isStarted = 1
    ∧ [LogEvent.connectionStarted (c.meta tsStart),
        LogEvent.connectionClosed (c.meta tsC) (schedBytes .aToB pre)
          (schedBytes .bToA pre)].countP LogEvent.isClosed = 1 := by
  refine ⟨?_, ?_, ?_⟩
  · unfold handle_connection
    rw [hdial]
    rw [relayLoop_nonterm_append c tsT tsC pre hpre]
    simp [relayLoop]
  · simp [List.countP, List.countP.go, LogEvent.isStarted, LogEvent.isClosed]
  · simp [List.countP, List.countP.go, LogEvent.isStarted, LogEvent.isClosed]

/-- Witness for C1: a connection that relays 100 bytes in each direction and
then sees the client close cleanly publishes Started then Closed with both
counters at 100. -/
theorem relay_eof_events_witness :
    handle_connection sConn (fun _ => .ok ()) 1 2 3 4
        [(Dir.aToB, .recv 100 true), (Dir.bToA, .recv 100 true), (Dir.aToB, .recv 0 true)]
      = ([.connectionStarted (sConn.meta 1), .connectionClosed (sConn.meta 3) 100 100],
         some (Dir.aToB, .eof))
    ∧ [LogEvent.connectionStarted (sConn.meta 1),
        LogEvent.connectionClosed (sConn.meta 3) 100 100].countP LogEvent.isStarted = 1
    ∧ [LogEvent.connectionStarted (sConn.meta 1),
        LogEvent.connectionClosed (sConn.meta 3) 100 100].countP LogEvent.isClosed = 1 := by
  have h := relay_eof_events sConn (fun _ => .ok ()) rfl 1 2 3 4
    [(Dir.aToB, .recv 100 true), (Dir.bToA, .recv 100 true)] [] Dir.aToB true (by decide)
  simpa [schedBytes, stepBytes] using h

/-- C3: for every connection where the dial fails, the relay publishes
exactly one ConnectionError event carrying the captured client address and
the dial error text, never publishes Started or Closed for that connection,
and consults only the single first dial attempt, so no retry can occur. -/
theorem relay_dial_failure_events (c : ConnInfo) (dialer : Nat → Except String Unit)
    (e : String) (hdial : dialer 0 = .error e) (tsStart tsT tsC tsE : Int)
    (sched : List (Dir × CopyStep)) :
    handle_connection c dialer tsStart tsT tsC tsE sched
      = ([.connectionError (c.meta tsE) e], none)
    ∧ [LogEvent.connectionError (c.meta tsE) e].countP LogEvent.isError = 1
    ∧ [LogEvent.connectionError (c.meta tsE) e].countP LogEvent.isStarted = 0
    ∧ [LogEvent.connectionError (c.meta tsE) e].countP LogEvent.isClosed = 0
    ∧ (∀ dialer' : Nat → Except String Unit, dialer' 0 = dialer 0 →
        handle_connection c dialer' tsStart tsT tsC tsE sched
          = handle_connection c dialer tsStart tsT tsC tsE sched) := by
  refine ⟨?_, ?_, ?_, ?_, ?_⟩
  · unfold handle_connection
    rw [hdial]
  · simp [List.countP, List.countP.go, LogEvent.isError]
  · simp [List.countP, List.countP.go, LogEvent.isStarted]
  · simp [List.countP, List.countP.go, LogEvent.isClosed]
  · intro dialer' h
    unfold handle_connection
    rw [h]

/-- Witness for C3: a refused dial publishes a single ConnectionError with
the client address and the dial error text, and nothing else. -/
theorem relay_dial_failure_events_witness :
    handle_connection sConn (fun _ => .error sDialErr) 1 2 3 4 []
      = ([.connectionError (sConn.meta 4) sDialErr], none)
    ∧ [LogEvent.connectionError (sConn.meta 4) sDialErr].countP LogEvent.isError = 1
    ∧ [LogEvent.connectionError (sConn.meta 4) sDialErr].countP LogEvent.isStarted = 0
    ∧ [LogEvent.connectionError (sConn.meta 4) sDialErr].countP LogEvent.isClosed = 0 := by
  have h := relay_dial_failure_events sConn (fun _ => .error sDialErr) sDialErr rfl 1 2 3 4 []
  exact ⟨h.1, h.2.1, h.2.2.1, h.2.2.2.1⟩

/-- C4: for every connection where the dial succeeded, when a direction
sees no bytes within the idle timeout after a run of non-terminating
iterations, the relay publishes exactly one ConnectionTimeout event for
that direction with the direction-specific error text, the copy loop
terminates with a timeout failure, and exactly one ConnectionClosed event
follows it carrying the accumulated counters. -/
theorem relay_timeout_events (c : ConnInfo) (dialer : Nat → Except String Unit)
    (hdial : dialer 0 = .ok ()) (tsStart tsT tsC tsE : Int)
    (pre rest : List (Dir × CopyStep)) (d : Dir)
    (hpre : ∀ p ∈ pre, p.2.isTerminator = false) :
    handle_connection c dialer tsStart tsT tsC tsE (pre ++ (d, .readTimeout) :: rest)
      = ([.connectionStarted (c.meta tsStart),
          .connectionTimeout (c.meta tsT) (timeoutText d),
          .connectionClosed (c.meta tsC) (schedBytes .aToB pre) (schedBytes .bToA pre)],
         some (d, .timedOut))
    ∧ [LogEvent.connectionStarted (c.meta tsStart),
        LogEvent.connectionTimeout (c.meta tsT) (timeoutText d),
        LogEvent.connectionClosed (c.meta tsC) (schedBytes .aToB pre)
          (schedBytes .bToA pre)].countP LogEvent.isTimeout = 1
    ∧ [LogEvent.connectionStarted (c.meta tsStart),
        LogEvent.connectionTimeout (c.meta tsT) (timeoutText d),
        LogEvent.connectionClosed (c.meta tsC) (schedBytes .aToB pre)
          (schedBytes .bToA pre)].countP LogEvent.isClosed = 1 := by
  refine ⟨?_, ?_, ?_⟩
  · unfold handle_connection
    rw [hdial]
    rw [relayLoop_nonterm_append c tsT tsC pre hpre]
    simp [relayLoop]
  · simp [List.countP, List.countP.go, LogEvent.isTimeout, LogEvent.isStarted,
      LogEvent.isClosed]
  · simp [List.countP, List.countP.go, LogEvent.isTimeout, LogEvent.isStarted,
      LogEvent.isClosed]

/-- Witness for C4: a connection that forwards 30 bytes client-to-remote
and then sees the remote-to-client read time out publishes Started, the
remote-to-client ConnectionTimeout, and Closed with counters 30 and 0. -/
theorem relay_timeout_events_witness :
    handle_connection sConn (fun _ => .ok ()) 1 2 3 4
        [(Dir.aToB, .recv 30 true), (Dir.bToA, .readTimeout)]
      = ([.connectionStarted (sConn.meta 1),
          .connectionTimeout (sConn.meta 2) timeoutTextBA,
          .connectionClosed (sConn.meta 3) 30 0],
         some (Dir.bToA, .timedOut))
    ∧ [LogEvent.connectionStarted (sConn.meta 1),
        LogEvent.connectionTimeout (sConn.meta 2) timeoutTextBA,
        LogEvent.connectionClosed (sConn.meta 3) 30 0].countP LogEvent.isTimeout = 1
    ∧ [LogEvent.connectionStarted (sConn.meta 1),
        LogEvent.connectionTimeout (sConn.meta 2) timeoutTextBA,
        LogEvent.connectionClosed (sConn.meta 3) 30 0].countP LogEvent.isClosed = 1 := by
  have h := relay_timeout_events sConn (fun _ => .ok ()) rfl 1 2 3 4
    [(Dir.aToB, .recv 30 true)] [] Dir.bToA (by decide)
  simpa [schedBytes, stepBytes, timeoutText] using h

/-- Sample persisted-row value used by concrete writer evaluations: the row
of a Closed event with counters 5 and 6. -/
def sRow : ConnectionRow := ⟨10, sName, logNameClosed, 9000, sHost, 9100, some sClient, 5, 6⟩

/-- C2: evaluation of the writer loop at the failing input of the claim.
The receive arm of the source matches every receive error with one
catch-all, so the Lagged loss signal of the broadcast channel, which the
claim and the spec require the writer to survive, takes the same
flush-and-break path as the bus-closed outcome: after buffering one row the
writer receives Lagged, flushes the row and stops, and the event delivered
afterwards is never consumed. -/
theorem writer_stops_on_lagged :
    (writerRun 1000 5 (writerInit 5 0)
        [(1, .recv (.ok (.connectionClosed ⟨10, sName, 9000, sHost, 9100, some sClient⟩ 5 6))),
         (2, .recv (.lagged 1)),
         (3, .recv (.ok (.connectionStarted ⟨11, sName, 9000, sHost, 9100, some sClient⟩)))]).1.stopped
      = true
    ∧ (writerRun 1000 5 (writerInit 5 0)
        [(1, .recv (.ok (.connectionClosed ⟨10, sName, 9000, sHost, 9100, some sClient⟩ 5 6))),
         (2, .recv (.lagged 1)),
         (3, .recv (.ok (.connectionStarted ⟨11, sName, 9000, sHost, 9100, some sClient⟩)))]).2
      = [[sRow]] := by
  constructor
  · rfl
  · rfl

/-- Helper: one writer iteration keeps the buffer within the configured
maximum if it was within it at the loop head, for a positive maximum. -/
theorem writerIter_buf_le (maxCount flushEvery now : Nat) (st : WriterState)
    (br : WriterBranch) (hmax : 1 ≤ maxCount) (h : st.buf.length ≤ maxCount) :
    ((writerIter maxCount flushEvery now st br).1).buf.length ≤ maxCount := by
  unfold writerIter
  by_cases hf : maxCount ≤ st.buf.length
  · cases br with
    | recv r =>
      cases r with
      | ok e => simp [hf]; omega
      | lagged n => simp [hf]
      | closed => simp [hf]
    | tick => simp [hf]
  · cases br with
    | recv r =>
      cases r with
      | ok e => simp [hf]; omega
      | lagged n =>
        by_cases hb : st.buf.isEmpty <;> simp [hf, hb] <;> omega
      | closed =>
        by_cases hb : st.buf.isEmpty <;> simp [hf, hb] <;> omega
    | tick =>
      by_cases hb : st.buf.isEmpty <;> simp [hf, hb] <;> omega

/-- Helper: every state at which the flush check of the writer loop is
entered keeps the buffer within a positive maximum, provided the starting
state does. -/
theorem writerStates_buf_le (maxCount flushEvery : Nat) (hmax : 1 ≤ maxCount) :
    ∀ (script : List (Nat × WriterBranch)) (st : WriterState),
      st.buf.length ≤ maxCount →
      ∀ st' ∈ writerStates maxCount flushEvery st script, st'.buf.length ≤ maxCount := by
  intro script
  induction script with
  | nil =>
    intro st h st' hmem
    simp [writerStates] at hmem
    exact hmem ▸ h
  | cons p rest ih =>
    intro st h st' hmem
    obtain ⟨now, br⟩ := p
    by_cases hs : st.stopped
    · simp [writerStates, hs] at hmem
      exact hmem ▸ h
    · simp [writerStates, hs] at hmem
      rcases hmem with rfl | hmem
      · exact h
      · exact ih _ (writerIter_buf_le maxCount flushEvery now st br hmax h) st' hmem

/-- Counterexample for C5 as frozen: with max_buffer_count configured to 0
the flush check can observe more rows than the configured maximum.  After
the size flush of an empty buffer the select appends the received row, so
the next flush check is entered holding one unflushed row, one more than
max_buffer_count. -/
theorem writer_flush_check_bound_counterexample :
    ∃ st ∈ writerStates 0 5 (writerInit 5 0)
        [(1, WriterBranch.recv (RecvOutcome.ok
          (LogEvent.connectionStarted ⟨11, sName, 9000, sHost, 9100, some sClient⟩)))],
      ¬ st.buf.length ≤ 0 := by decide

/-- C5 as amended: provided max_buffer_count is at least 1 (the default is
1000), every state at which the writer performs its flush check holds at
most max_buffer_count unflushed rows, and whenever the flush check finds
the batch at or above the maximum the writer flushes it immediately before
consuming the next event and resets the rolling deadline. -/
theorem writer_flush_check_bound (maxCount flushEvery t0 : Nat) (hmax : 1 ≤ maxCount)
    (script : List (Nat × WriterBranch)) :
    (∀ st ∈ writerStates maxCount flushEvery (writerInit flushEvery t0) script,
        st.buf.length ≤ maxCount)
    ∧ (∀ (st : WriterState) (now : Nat) (e : LogEvent), maxCount ≤ st.buf.length →
        writerIter maxCount flushEvery now st (.recv (.ok e))
          = (⟨[rowOfEvent e], now + flushEvery, st.stopped⟩, [st.buf])) := by
  constructor
  · exact writerStates_buf_le maxCount flushEvery hmax script (writerInit flushEvery t0)
      (by simp [writerInit])
  · intro st now e hfull
    simp [writerIter, hfull]

/-- Witness for C5 as amended: with the default maximum of 1000 a run that
buffers two rows keeps every flush check within bound, and a full batch of
1000 rows is flushed and cleared by the check before the next event is
consumed. -/
theorem writer_flush_check_bound_witness :
    (1 ≤ 1000
    ∧ ∀ st ∈ writerStates 1000 5 (writerInit 5 0)
        [(1, WriterBranch.recv (RecvOutcome.ok
          (LogEvent.connectionClosed ⟨10, sName, 9000, sHost, 9100, some sClient⟩ 5 6))),
         (2, WriterBranch.recv (RecvOutcome.ok
          (LogEvent.connectionStarted ⟨11, sName, 9000, sHost, 9100, some sClient⟩)))],
        st.buf.length ≤ 1000)
    ∧ writerIter 1000 5 7 ⟨List.replicate 1000 sRow, 5, false⟩
        (.recv (.ok (.connectionStarted ⟨11, sName, 9000, sHost, 9100, some sClient⟩)))
      = (⟨[rowOfEvent (.connectionStarted ⟨11, sName, 9000, sHost, 9100, some sClient⟩)],
          7 + 5, false⟩, [List.replicate 1000 sRow]) := by
  have h := writer_flush_check_bound 1000 5 0 (by decide)
    [(1, WriterBranch.recv (RecvOutcome.ok
      (LogEvent.connectionClosed ⟨10, sName, 9000, sHost, 9100, some sClient⟩ 5 6))),
     (2, WriterBranch.recv (RecvOutcome.ok
      (LogEvent.connectionStarted ⟨11, sName, 9000, sHost, 9100, some sClient⟩)))]
  refine ⟨⟨by decide, h.1⟩, ?_⟩
  exact h.2 ⟨List.replicate 1000 sRow, 5, false⟩ 7
    (.connectionStarted ⟨11, sName, 9000, sHost, 9100, some sClient⟩)
    (by simp only [List.length_replicate]; omega)

/-- C6: when the rolling deadline elapses on a running writer whose batch
is below the size threshold, the deadline branch flushes the batch exactly
when it is non-empty, clears it, and resets the deadline to now plus the
flush interval; an empty batch produces no flush but the deadline is reset
all the same. -/
theorem writer_deadline_flush (maxCount flushEvery now : Nat) (st : WriterState)
    (hrun : st.stopped = false) (hdl : st.deadline ≤ now)
    (hlen : st.buf.length < maxCount) :
    writerIter maxCount flushEvery now st .tick
      = (⟨[], now + flushEvery, false⟩, if st.buf.isEmpty then [] else [st.buf]) := by
  have hf : ¬ maxCount ≤ st.buf.length := by omega
  by_cases hb : st.buf.isEmpty
  · have hbuf : st.buf = [] := by simpa [List.isEmpty_iff] using hb
    have h0 : ¬ maxCount = 0 := by omega
    simp [writerIter, hf, hbuf, h0, hrun]
  · simp [writerIter, hf, hb, hrun]

/-- Witness for C6: a writer holding one row whose deadline 5 elapses at
instant 7 flushes that row, clears the batch, and moves the deadline to 12;
the same instant with an empty batch flushes nothing and still resets. -/
theorem writer_deadline_flush_witness :
    ((⟨[sRow], 5, false⟩ : WriterState).stopped = false
    ∧ (⟨[sRow], 5, false⟩ : WriterState).deadline ≤ 7
    ∧ (⟨[sRow], 5, false⟩ : WriterState).buf.length < 1000)
    ∧ writerIter 1000 5 7 ⟨[sRow], 5, false⟩ .tick = (⟨[], 12, false⟩, [[sRow]])
    ∧ writerIter 1000 5 7 ⟨[], 5, false⟩ .tick = (⟨[], 12, false⟩, []) := by
  refine ⟨⟨rfl, by decide, by decide⟩, ?_, ?_⟩
  · have h := writer_deadline_flush 1000 5 7 ⟨[sRow], 5, false⟩ rfl (by decide) (by decide)
    simpa using h
  · have h := writer_deadline_flush 1000 5 7 ⟨[], 5, false⟩ rfl (by decide) (by decide)
    simpa using h

/-- C9: inserting an empty row sequence succeeds without touching the
store: the table is returned unchanged and no transaction is opened, since
the source returns before ever entering the connection call. -/
theorem insert_empty_rows_noop (store : List StoredRow) :
    insert_connection_rows store [] = (store, 0) := rfl

/-- C10: parse_time gives integer parsing absolute priority.  A string that
parses as a signed 64-bit integer is interpreted exclusively as unix epoch
seconds, so the result does not depend on the RFC3339 parser at all; an
integer outside the representable timestamp range yields the unix-timestamp
parse error, which the stats handler turns into a 400 response; and only a
string that fails integer parsing is handed to the RFC3339 parser. -/
theorem parse_time_integer_priority (inRange : Int → Bool)
    (rfc rfc' : String → Option Int) (s : String) :
    ((parseI64 s).isSome = true →
        parse_time inRange rfc s = parse_time inRange rfc' s)
    ∧ (∀ n, parseI64 s = some n →
        parse_time inRange rfc s
          = if inRange n then .ok n else .error errUnixTs)
    ∧ (∀ n, parseI64 s = some n → inRange n = false →
        ∀ (db : Option (Int → Int → Except String (List ClientTraffic))) (b : String),
          stats_clients_handler inRange rfc db s b = .err 400 errUnixTs)
    ∧ (parseI64 s = none →
        parse_time inRange rfc s
          = match rfc s with
            | some t => Except.ok t
            | none => Except.error errTimeFormat) := by
  refine ⟨?_, ?_, ?_, ?_⟩
  · intro h
    obtain ⟨n, hn⟩ := Option.isSome_iff_exists.mp h
    simp [parse_time, hn]
  · intro n hn
    simp [parse_time, hn]
  · intro n hn hr db b
    simp [stats_clients_handler, parse_time, hn, hr]
  · intro h
    simp [parse_time, h]

/-- Witness for C10: the in-range integer string 4102444800 parses as epoch
seconds whatever the RFC3339 parser would say, the out-of-range integer
string 99999999999999999 is a 400 unix-timestamp parse error, and a
non-integer string falls through to the RFC3339 parser. -/
theorem parse_time_integer_priority_witness :
    parse_time (fun t => decide (-8334601228800 ≤ t ∧ t ≤ 8210266876799))
        (fun _ => some 0) "4102444800"
      = parse_time (fun t => decide (-8334601228800 ≤ t ∧ t ≤ 8210266876799))
        (fun _ => none) "4102444800"
    ∧ parse_time (fun t => decide (-8334601228800 ≤ t ∧ t ≤ 8210266876799))
        (fun _ => none) "4102444800" = .ok 4102444800
    ∧ stats_clients_handler (fun t => decide (-8334601228800 ≤ t ∧ t ≤ 8210266876799))
        (fun _ => none) none "99999999999999999" "0" = .err 400 errUnixTs
    ∧ parse_time (fun t => decide (-8334601228800 ≤ t ∧ t ≤ 8210266876799))
        (fun _ => some 11) "not-a-number" = .ok 11 := by
  have h100 := parse_time_integer_priority
    (fun t => decide (-8334601228800 ≤ t ∧ t ≤ 8210266876799)) (fun _ => some 0)
    (fun _ => none) "4102444800"
  have hbig := parse_time_integer_priority
    (fun t => decide (-8334601228800 ≤ t ∧ t ≤ 8210266876799)) (fun _ => none)
    (fun _ => none) "99999999999999999"
  have hrfc := parse_time_integer_priority
    (fun t => decide (-8334601228800 ≤ t ∧ t ≤ 8210266876799)) (fun _ => some 11)
    (fun _ => none) "not-a-number"
  refine ⟨h100.1 (by decide), ?_, ?_, ?_⟩
  · have := h100.2.1 4102444800 (by decide)
    simpa using this.symm.trans (h100.1 (by decide)).symm
  · exact hbig.2.2.1 99999999999999999 (by decide) (by decide) none "0"
  · have := hrfc.2.2.2 (by decide)
    simpa using this

/-- C8: the stats handler answers 400 with the parse error text when either
timestamp fails to parse, 503 when both parse but no store is configured,
500 with the query error text when the store query fails, and the JSON rows
when it succeeds. -/
theorem stats_clients_status (inRange : Int → Bool) (rfc : String → Option Int)
    (db : Option (Int → Int → Except String (List ClientTraffic))) (a b : String) :
    (∀ ea, parse_time inRange rfc a = .error ea →
        stats_clients_handler inRange rfc db a b = .err 400 ea)
    ∧ (∀ s eb, parse_time inRange rfc a = .ok s → parse_time inRange rfc b = .error eb →
        stats_clients_handler inRange rfc db a b = .err 400 eb)
    ∧ (∀ s t, parse_time inRange rfc a = .ok s → parse_time inRange rfc b = .ok t →
        db = none → stats_clients_handler inRange rfc db a b = .err 503 errNoDb)
    ∧ (∀ s t q er, parse_time inRange rfc a = .ok s → parse_time inRange rfc b = .ok t →
        db = some q → q s t = .error er →
        stats_clients_handler inRange rfc db a b = .err 500 er)
    ∧ (∀ s t q rows, parse_time inRange rfc a = .ok s → parse_time inRange rfc b = .ok t →
        db = some q → q s t = .ok rows →
        stats_clients_handler inRange rfc db a b = .ok rows) := by
  refine ⟨?_, ?_, ?_, ?_, ?_⟩
  · intro ea ha
    simp [stats_clients_handler, ha]
  · intro s eb ha hb
    simp [stats_clients_handler, ha, hb]
  · intro s t ha hb hdb
    simp [stats_clients_handler, ha, hb, hdb]
  · intro s t q er ha hb hdb hq
    simp [stats_clients_handler, ha, hb, hdb, hq]
  · intro s t q rows ha hb hdb hq
    simp [stats_clients_handler, ha, hb, hdb, hq]

/-- Witness for C8: with a trivial range check, an unparseable start gives
400, a parseable pair without a store gives 503, a failing query gives 500,
and a succeeding query returns its rows. -/
theorem stats_clients_status_witness :
    stats_clients_handler (fun _ => true) (fun _ => none) none "bad" "0"
      = .err 400 errTimeFormat
    ∧ stats_clients_handler (fun _ => true) (fun _ => none) none "0" "5"
      = .err 503 errNoDb
    ∧ stats_clients_handler (fun _ => true) (fun _ => none)
        (some (fun _ _ => .error sQErr)) "0" "5" = .err 500 sQErr
    ∧ stats_clients_handler (fun _ => true) (fun _ => none)
        (some (fun _ _ => .ok [])) "0" "5" = .ok [] := by
  refine ⟨?_, ?_, ?_, ?_⟩
  · exact (stats_clients_status (fun _ => true) (fun _ => none) none "bad" "0").1
      errTimeFormat rfl
  · exact (stats_clients_status (fun _ => true) (fun _ => none) none "0" "5").2.2.1
      0 5 rfl rfl rfl
  · exact (stats_clients_status (fun _ => true) (fun _ => none)
      (some (fun _ _ => .error sQErr)) "0" "5").2.2.2.1 0 5 (fun _ _ => .error sQErr)
      sQErr rfl rfl rfl rfl
  · exact (stats_clients_status (fun _ => true) (fun _ => none)
      (some (fun _ _ => .ok [])) "0" "5").2.2.2.2 0 5 (fun _ _ => .ok []) []
      rfl rfl rfl rfl

/-- The window restriction of the WHERE clause, as a table operation. -/
def windowRows (store : List StoredRow) (s e : Int) : List StoredRow :=
  store.filter (rowInWindow s e)

/-- Helper: dropping the rows a predicate rejects does not change a sum in
which every rejected row contributes zero. -/
theorem sum_map_filter_of_zero (l : List StoredRow) (p : StoredRow → Bool)
    (f : StoredRow → Int) (h : ∀ r ∈ l, p r = false → f r = 0) :
    ((l.filter p).map f).sum = (l.map f).sum := by
  induction l with
  | nil => simp
  | cons r l ih =>
    have ih' := ih (fun x hx hpx => h x (List.mem_cons_of_mem r hx) hpx)
    by_cases hp : p r
    · simp [List.filter_cons, hp, ih']
    · have h0 := h r (List.mem_cons_self r l) (by simpa using hp)
      simp [List.filter_cons, hp, h0, ih']

/-- Helper: with non-negative stored counters, the client-to-remote sum of
an aggregation group is the plain integer sum over the rows of its key. -/
theorem clientGroup_bytes_from_to (m : List StoredRow) (k : Option String)
    (hnn : ∀ r ∈ m, 0 ≤ r.bytes_from_to) :
    ((clientGroup m k).bytes_from_to : Int)
      = ((m.filter (fun r => decide (r.client_addr = k))).map
          (fun r : StoredRow => r.bytes_from_to)).sum := by
  have hnonneg : 0 ≤ ((m.filter (fun r => decide (r.client_addr = k))).map
      (fun r : StoredRow => r.bytes_from_to)).sum := by
    refine List.sum_nonneg ?_
    intro x hx
    obtain ⟨r, hr, rfl⟩ := List.mem_map.mp hx
    exact hnn r (List.mem_filter.mp hr).1
  simp only [clientGroup]
  rw [max_eq_left hnonneg]
  exact Int.toNat_of_nonneg hnonneg

/-- Helper: with non-negative stored counters, the remote-to-client sum of
an aggregation group is the plain integer sum over the rows of its key. -/
theorem clientGroup_bytes_to_from (m : List StoredRow) (k : Option String)
    (hnn : ∀ r ∈ m, 0 ≤ r.bytes_to_from) :
    ((clientGroup m k).bytes_to_from : Int)
      = ((m.filter (fun r => decide (r.client_addr = k))).map
          (fun r : StoredRow => r.bytes_to_from)).sum := by
  have hnonneg : 0 ≤ ((m.filter (fun r => decide (r.client_addr = k))).map
      (fun r : StoredRow => r.bytes_to_from)).sum := by
    refine List.sum_nonneg ?_
    intro x hx
    obtain ⟨r, hr, rfl⟩ := List.mem_map.mp hx
    exact hnn r (List.mem_filter.mp hr).1
  simp only [clientGroup]
  rw [max_eq_left hnonneg]
  exact Int.toNat_of_nonneg hnonneg

/-- Helper: when rows that are not Closed rows contribute zero, restricting
a per-client sum to the Closed rows does not change it. -/
theorem closed_filter_sum (m : List StoredRow) (k : Option String)
    (f : StoredRow → Int)
    (hz : ∀ r ∈ m, ¬ r.log_name = logNameClosed → f r = 0) :
    ((m.filter (fun r => decide (r.log_name = logNameClosed)
        && decide (r.client_addr = k))).map f).sum
      = ((m.filter (fun r => decide (r.client_addr = k))).map f).sum := by
  rw [← List.filter_filter]
  refine sum_map_filter_of_zero _ _ _ ?_
  intro r hr hpr
  have hrm : r ∈ m := (List.mem_filter.mp hr).1
  have hnotc : ¬ r.log_name = logNameClosed := by simpa using hpr
  exact hz r hrm hnotc

/-- The property C7 asserts of the aggregation query, written out against
the model: the groups carry pairwise distinct client addresses, exactly the
distinct addresses of the window rows; each group sums each byte column
over exactly the window rows of its address; those sums equal the sums over
the Closed window rows of its address alone; the groups are ordered by
combined total descending; and an empty match, the empty window included,
yields the empty sequence. -/
def TrafficQuerySpec (store : List StoredRow) (s e : Int) : Prop :=
  ((query_traffic_by_client store s e).map (fun g => g.client_addr)).Nodup
  ∧ (∀ k : Option String,
      k ∈ (query_traffic_by_client store s e).map (fun g => g.client_addr)
        ↔ ∃ r ∈ windowRows store s e, r.client_addr = k)
  ∧ (∀ g ∈ query_traffic_by_client store s e,
      (g.bytes_from_to : Int)
          = (((windowRows store s e).filter
              (fun r => decide (r.client_addr = g.client_addr))).map
              (fun r : StoredRow => r.bytes_from_to)).sum
        ∧ (g.bytes_to_from : Int)
          = (((windowRows store s e).filter
              (fun r => decide (r.client_addr = g.client_addr))).map
              (fun r : StoredRow => r.bytes_to_from)).sum)
  ∧ (∀ g ∈ query_traffic_by_client store s e,
      (g.bytes_from_to : Int)
          = (((windowRows store s e).filter
              (fun r => decide (r.log_name = logNameClosed)
                && decide (r.client_addr = g.client_addr))).map
              (fun r : StoredRow => r.bytes_from_to)).sum
        ∧ (g.bytes_to_from : Int)
          = (((windowRows store s e).filter
              (fun r => decide (r.log_name = logNameClosed)
                && decide (r.client_addr = g.client_addr))).map
              (fun r : StoredRow => r.bytes_to_from)).sum)
  ∧ List.Sorted (fun g1 g2 => g2.total ≤ g1.total) (query_traffic_by_client store s e)
  ∧ (windowRows store s e = [] → query_traffic_by_client store s e = [])
  ∧ (s = e → query_traffic_by_client store s e = [])

/-- C7: over any table whose stored byte counters are non-negative and zero
on non-Closed rows, the aggregation query satisfies the full per-client
traffic specification: one group per distinct client address of the
half-open window, per-group sums over exactly the window rows of that
address, equality with the Closed-row sums, descending order by combined
total, and the empty result, never an error, when nothing matches. -/
theorem query_traffic_spec (store : List StoredRow) (s e : Int)
    (hnn : ∀ r ∈ store, 0 ≤ r.bytes_from_to ∧ 0 ≤ r.bytes_to_from)
    (hz : ∀ r ∈ store, ¬ r.log_name = logNameClosed →
        r.bytes_from_to = 0 ∧ r.bytes_to_from = 0) :
    TrafficQuerySpec store s e := by
  have hq : query_traffic_by_client store s e
      = List.insertionSort (fun g1 g2 => g2.total ≤ g1.total)
        (((windowRows store s e).map (fun r => r.client_addr)).dedup.map
          (clientGroup (windowRows store s e))) := rfl
  have hmsub : ∀ r ∈ windowRows store s e, r ∈ store :=
    fun r hr => (List.mem_filter.mp hr).1
  have hperm : (query_traffic_by_client store s e).Perm
      ((((windowRows store s e).map (fun r => r.client_addr)).dedup).map
        (clientGroup (windowRows store s e))) := by
    rw [hq]
    exact List.perm_insertionSort _ _
  have hGaddr : ((((windowRows store s e).map (fun r => r.client_addr)).dedup.map
        (clientGroup (windowRows store s e))).map (fun g => g.client_addr))
      = ((windowRows store s e).map (fun r => r.client_addr)).dedup := by
    rw [List.map_map]
    have hid : ((fun g : ClientTraffic => g.client_addr)
        ∘ clientGroup (windowRows store s e)) = id := rfl
    rw [hid, List.map_id]
  have hgroup : ∀ g ∈ query_traffic_by_client store s e,
      ∃ k, clientGroup (windowRows store s e) k = g := by
    intro g hg
    obtain ⟨k, hk, hgk⟩ := List.mem_map.mp (hperm.mem_iff.mp hg)
    exact ⟨k, hgk⟩
  refine ⟨?_, ?_, ?_, ?_, ?_, ?_, ?_⟩
  · rw [(hperm.map (fun g => g.client_addr)).nodup_iff, hGaddr]
    exact List.nodup_dedup _
  · intro k
    rw [(hperm.map (fun g => g.client_addr)).mem_iff, hGaddr, List.mem_dedup,
      List.mem_map]
  · intro g hg
    obtain ⟨k, rfl⟩ := hgroup g hg
    have haddr : (clientGroup (windowRows store s e) k).client_addr = k := rfl
    rw [haddr]
    exact ⟨clientGroup_bytes_from_to _ k (fun r hr => (hnn r (hmsub r hr)).1),
      clientGroup_bytes_to_from _ k (fun r hr => (hnn r (hmsub r hr)).2)⟩
  · intro g hg
    obtain ⟨k, rfl⟩ := hgroup g hg
    have haddr : (clientGroup (windowRows store s e) k).client_addr = k := rfl
    rw [haddr]
    constructor
    · rw [closed_filter_sum _ k _ (fun r hr hc => (hz r (hmsub r hr) hc).1)]
      exact clientGroup_bytes_from_to _ k (fun r hr => (hnn r (hmsub r hr)).1)
    · rw [closed_filter_sum _ k _ (fun r hr hc => (hz r (hmsub r hr) hc).2)]
      exact clientGroup_bytes_to_from _ k (fun r hr => (hnn r (hmsub r hr)).2)
  · rw [hq]
    haveI hins1 : IsTotal ClientTraffic (fun g1 g2 => g2.total ≤ g1.total) :=
      ⟨fun x y => le_total y.total x.total⟩
    haveI hins2 : IsTrans ClientTraffic (fun g1 g2 => g2.total ≤ g1.total) :=
      ⟨fun x y z hxy hyz => le_trans hyz hxy⟩
    exact List.sorted_insertionSort _ _
  · intro h
    rw [hq, h]
    rfl
  · intro h
    subst h
    have hw : windowRows store s s = [] := by
      rw [windowRows, List.filter_eq_nil_iff]
      intro r hr
      simp only [rowInWindow, Bool.and_eq_true, decide_eq_true_eq]
      intro hcontra
      omega
    rw [hq, hw]
    rfl

/-- Witness for C7: a store holding two Closed rows for one client, one
Closed row without a client address, a Started row contributing zero, and a
Closed row outside the window satisfies both hypotheses, and the traffic
specification holds of the window 0 to 50 over it. -/
theorem query_traffic_spec_witness :
    (∀ r ∈ [(⟨5, sName, logNameClosed, 9000, sHost, 9100, some sClient, 10, 20⟩ : StoredRow),
        ⟨6, sName, logNameStarted, 9000, sHost, 9100, some sClient, 0, 0⟩,
        ⟨7, sName, logNameClosed, 9000, sHost, 9100, some sClient, 1, 2⟩,
        ⟨8, sName, logNameClosed, 9000, sHost, 9100, none, 100, 200⟩,
        ⟨99, sName, logNameClosed, 9000, sHost, 9100, some sClient, 7, 7⟩],
      0 ≤ r.bytes_from_to ∧ 0 ≤ r.bytes_to_from)
    ∧ (∀ r ∈ [(⟨5, sName, logNameClosed, 9000, sHost, 9100, some sClient, 10, 20⟩ : StoredRow),
        ⟨6, sName, logNameStarted, 9000, sHost, 9100, some sClient, 0, 0⟩,
        ⟨7, sName, logNameClosed, 9000, sHost, 9100, some sClient, 1, 2⟩,
        ⟨8, sName, logNameClosed, 9000, sHost, 9100, none, 100, 200⟩,
        ⟨99, sName, logNameClosed, 9000, sHost, 9100, some sClient, 7, 7⟩],
      ¬ r.log_name = logNameClosed → r.bytes_from_to = 0 ∧ r.bytes_to_from = 0)
    ∧ TrafficQuerySpec
        [⟨5, sName, logNameClosed, 9000, sHost, 9100, some sClient, 10, 20⟩,
         ⟨6, sName, logNameStarted, 9000, sHost, 9100, some sClient, 0, 0⟩,
         ⟨7, sName, logNameClosed, 9000, sHost, 9100, some sClient, 1, 2⟩,
         ⟨8, sName, logNameClosed, 9000, sHost, 9100, none, 100, 200⟩,
         ⟨99, sName, logNameClosed, 9000, sHost, 9100, some sClient, 7, 7⟩] 0 50 := by
  refine ⟨by decide, by decide, ?_⟩
  exact query_traffic_spec _ 0 50 (by decide) (by decide)

end RsPortForward
